import Mathlib

/-!
Verification of the batch_tree repository's genealogy-graph core.

The repository builds a directed graph of pharmaceutical batches
(`model.py: build_batch_genealogy_graph`), computes trace highlights over it
(`graph_view.py: calculate_trace_highlights`, which calls networkx's
`descendants`, `ancestors`, `has_path` and `shortest_path`), returns a sample
bill of materials (`model.py: get_bom_list`) and serves mock genealogy records
(`data_mock.py: load_mock_batch`).

The embedding below mirrors those functions over lists of strings.  A graph is
a list of attributed nodes plus a list of attributed directed edges; the node
set of the corresponding networkx `DiGraph` (which automatically inserts edge
endpoints as nodes) is `Graph.vertexList`.  Reachability is computed by a
fuel-bounded search (`reachF` forward along successors, `reachBF` backward
along predecessors, exactly as `nx.descendants` / `nx.ancestors` traverse),
with fuel `Graph.bound`, and is proved below to coincide with the
reflexive-transitive closure of the edge relation.
-/

set_option maxRecDepth 10000

/-- String-keyed attribute dictionaries, modelling the Python attribute
dicts attached to nodes and edges (all values rendered as strings). -/
abbrev Attrs := List (String × String)

/-- A directed graph with attributed nodes and attributed edges, modelling a
networkx `DiGraph` as populated by `add_node` / `add_edge`. -/
structure Graph where
  nodes : List (String × Attrs)
  edges : List (String × String × Attrs)
deriving DecidableEq, Repr

namespace Graph

/-- The directed edge pairs of the graph, attributes stripped. -/
def edgePairs (G : Graph) : List (String × String) :=
  G.edges.map (fun e => (e.1, e.2.1))

/-- The node set of the networkx graph: every id added as a node, plus every
edge endpoint (networkx `add_edge` inserts missing endpoints as nodes). -/
def vertexList (G : Graph) : List String :=
  (G.nodes.map Prod.fst ++ G.edges.map (fun e => e.1)
    ++ G.edges.map (fun e => e.2.1)).dedup

/-- Successors of `u`: targets of edges leaving `u` (networkx `G.succ`). -/
def succList (G : Graph) (u : String) : List String :=
  (G.edges.filter (fun e => e.1 == u)).map (fun e => e.2.1)

/-- Predecessors of `v`: sources of edges entering `v` (networkx `G.pred`). -/
def predList (G : Graph) (v : String) : List String :=
  (G.edges.filter (fun e => e.2.1 == v)).map (fun e => e.1)

/-- Fuel bound used for the reachability searches: the number of distinct
vertices, which bounds the length of any duplicate-free walk. -/
def bound (G : Graph) : Nat := G.vertexList.length

end Graph

/-- The one-step edge relation of a graph. -/
def edgeRel (G : Graph) (u v : String) : Prop := (u, v) ∈ G.edgePairs

instance (G : Graph) (u v : String) : Decidable (edgeRel G u v) := by
  unfold edgeRel; infer_instance

/-- `Reaches G a b`: there is a directed walk (possibly empty) from `a` to
`b`.  This is the mathematical reachability notion underlying networkx's
`descendants` / `ancestors` / `has_path`. -/
def Reaches (G : Graph) : String → String → Prop :=
  Relation.ReflTransGen (edgeRel G)

/-- Forward fuel-bounded reachability: `reachF G n a b` decides whether `b`
can be reached from `a` along at most `n` successor steps. -/
def reachF (G : Graph) : Nat → String → String → Bool
  | 0, a, b => a == b
  | n + 1, a, b => a == b || (G.succList a).any (fun c => reachF G n c b)

/-- Backward fuel-bounded reachability: `reachBF G n b a` decides whether some
walk of at most `n` steps runs from `a` to `b`, searching along predecessors
of `b` (as `nx.ancestors` does). -/
def reachBF (G : Graph) : Nat → String → String → Bool
  | 0, b, a => b == a
  | n + 1, b, a => b == a || (G.predList b).any (fun c => reachBF G n c a)

/-- Nodes returned by `nx.descendants(G, t)`: vertices other than `t` that
are reachable from `t`, computed by the bounded forward search. -/
def descList (G : Graph) (t : String) : List String :=
  G.vertexList.filter (fun b => b != t && reachF G G.bound t b)

/-- Nodes returned by `nx.ancestors(G, t)`: vertices other than `t` from
which `t` is reachable, computed by the bounded backward search. -/
def ancList (G : Graph) (t : String) : List String :=
  G.vertexList.filter (fun a => a != t && reachBF G G.bound t a)

/-- The set `nx.descendants` is specified to compute. -/
def descendantsSet (G : Graph) (t : String) : Set String :=
  {b | b ≠ t ∧ Reaches G t b}

/-- The set `nx.ancestors` is specified to compute. -/
def ancestorsSet (G : Graph) (t : String) : Set String :=
  {a | a ≠ t ∧ Reaches G a t}

-- Basic membership lemmas --

theorem mem_succList {G : Graph} {a c : String} :
    c ∈ G.succList a ↔ (a, c) ∈ G.edgePairs := by
  simp only [Graph.succList, Graph.edgePairs, List.mem_map, List.mem_filter,
    beq_iff_eq]
  constructor
  · rintro ⟨e, ⟨he, h1⟩, h2⟩
    exact ⟨e, he, by rw [h1, h2]⟩
  · rintro ⟨e, he, h⟩
    exact ⟨e, ⟨he, (Prod.mk.injEq _ _ _ _ ▸ h).1⟩, (Prod.mk.injEq _ _ _ _ ▸ h).2⟩

theorem mem_predList {G : Graph} {v c : String} :
    c ∈ G.predList v ↔ (c, v) ∈ G.edgePairs := by
  simp only [Graph.predList, Graph.edgePairs, List.mem_map, List.mem_filter,
    beq_iff_eq]
  constructor
  · rintro ⟨e, ⟨he, h1⟩, h2⟩
    exact ⟨e, he, by rw [h1, h2]⟩
  · rintro ⟨e, he, h⟩
    exact ⟨e, ⟨he, (Prod.mk.injEq _ _ _ _ ▸ h).2⟩, (Prod.mk.injEq _ _ _ _ ▸ h).1⟩

theorem mem_vertexList_fst {G : Graph} {u v : String}
    (h : (u, v) ∈ G.edgePairs) : u ∈ G.vertexList := by
  simp only [Graph.vertexList, List.mem_dedup, List.mem_append, List.mem_map]
  rcases List.mem_map.mp h with ⟨e, he, hev⟩
  exact Or.inl (Or.inr ⟨e, he, (Prod.mk.injEq _ _ _ _ ▸ hev).1⟩)

theorem mem_vertexList_snd {G : Graph} {u v : String}
    (h : (u, v) ∈ G.edgePairs) : v ∈ G.vertexList := by
  simp only [Graph.vertexList, List.mem_dedup, List.mem_append, List.mem_map]
  rcases List.mem_map.mp h with ⟨e, he, hev⟩
  exact Or.inr ⟨e, he, (Prod.mk.injEq _ _ _ _ ▸ hev).2⟩

theorem vertexList_nodup (G : Graph) : G.vertexList.Nodup :=
  List.nodup_dedup _

-- Walks: vertex lists tracing consecutive edges --

theorem head?_append_of_ne_nil {α : Type} (l₁ l₂ : List α) (h : l₁ ≠ []) :
    (l₁ ++ l₂).head? = l₁.head? := by
  cases l₁ with
  | nil => exact absurd rfl h
  | cons a t => rfl

/-- `IsWalk G W a b`: the nonempty vertex list `W` is a directed walk from
`a` to `b`: consecutive entries are edges, the first entry is `a` and the
last is `b`.  A walk with `k` edges has `k + 1` vertices. -/
def IsWalk (G : Graph) (W : List String) (a b : String) : Prop :=
  W.Chain' (edgeRel G) ∧ W.head? = some a ∧ W.getLast? = some b

theorem isWalk_singleton {G : Graph} {a : String} : IsWalk G [a] a a :=
  ⟨List.chain'_singleton a, rfl, rfl⟩

theorem isWalk_cons {G : Graph} {W : List String} {a c b : String}
    (he : edgeRel G a c) (hw : IsWalk G W c b) : IsWalk G (a :: W) a b := by
  obtain ⟨hC, hh, hl⟩ := hw
  cases W with
  | nil => simp at hh
  | cons w ws =>
    refine ⟨List.chain'_cons.mpr ⟨?_, hC⟩, rfl, ?_⟩
    · cases hh; exact he
    · rw [List.getLast?_cons_cons]; exact hl

theorem isWalk_snoc {G : Graph} {W : List String} {a c b : String}
    (hw : IsWalk G W a c) (he : edgeRel G c b) : IsWalk G (W ++ [b]) a b := by
  obtain ⟨hC, hh, hl⟩ := hw
  refine ⟨hC.append (List.chain'_singleton b) ?_, ?_, List.getLast?_concat _⟩
  · intro x hx y hy
    rw [hl] at hx
    cases hx
    cases hy
    exact he
  · rw [List.head?_append, hh]; rfl

theorem isWalk_single_eq {G : Graph} {x a b : String}
    (h : IsWalk G [x] a b) : a = b := by
  obtain ⟨-, hh, hl⟩ := h
  cases hh; cases hl; rfl

/-- Forward fuel search finds exactly the walks of bounded length. -/
theorem reachF_iff {G : Graph} :
    ∀ (n : Nat) (a b : String),
      reachF G n a b = true ↔ ∃ W, IsWalk G W a b ∧ W.length ≤ n + 1 := by
  intro n
  induction n with
  | zero =>
    intro a b
    simp only [reachF, beq_iff_eq]
    constructor
    · rintro rfl
      exact ⟨_, isWalk_singleton, by simp⟩
    · rintro ⟨W, hw, hlen⟩
      match W, hlen with
      | [x], _ => exact isWalk_single_eq hw
      | [], _ => simp [IsWalk] at hw
  | succ n ih =>
    intro a b
    simp only [reachF, Bool.or_eq_true, beq_iff_eq, List.any_eq_true]
    constructor
    · rintro (rfl | ⟨c, hc, hr⟩)
      · exact ⟨_, isWalk_singleton, by simp⟩
      · obtain ⟨W, hw, hlen⟩ := (ih c b).mp hr
        exact ⟨a :: W, isWalk_cons (mem_succList.mp hc) hw, by
          simpa using Nat.succ_le_succ hlen⟩
    · rintro ⟨W, hw, hlen⟩
      match W with
      | [] => simp [IsWalk] at hw
      | [x] => exact Or.inl (isWalk_single_eq hw)
      | x :: y :: rest =>
        obtain ⟨hC, hh, hl⟩ := hw
        cases hh
        refine Or.inr ⟨y, mem_succList.mpr (List.chain'_cons.mp hC).1, ?_⟩
        refine (ih y b).mpr ⟨y :: rest, ⟨(List.chain'_cons.mp hC).2, rfl, ?_⟩, ?_⟩
        · rw [List.getLast?_cons_cons] at hl; exact hl
        · simpa using Nat.le_of_succ_le_succ hlen

/-- Backward fuel search (along predecessors) finds exactly the same bounded
walks, read from their far end. -/
theorem reachBF_iff {G : Graph} :
    ∀ (n : Nat) (b a : String),
      reachBF G n b a = true ↔ ∃ W, IsWalk G W a b ∧ W.length ≤ n + 1 := by
  intro n
  induction n with
  | zero =>
    intro b a
    simp only [reachBF, beq_iff_eq]
    constructor
    · rintro rfl
      exact ⟨_, isWalk_singleton, by simp⟩
    · rintro ⟨W, hw, hlen⟩
      match W, hlen with
      | [x], _ => exact (isWalk_single_eq hw).symm
      | [], _ => simp [IsWalk] at hw
  | succ n ih =>
    intro b a
    simp only [reachBF, Bool.or_eq_true, beq_iff_eq, List.any_eq_true]
    constructor
    · rintro (rfl | ⟨c, hc, hr⟩)
      · exact ⟨_, isWalk_singleton, by simp⟩
      · obtain ⟨W, hw, hlen⟩ := (ih c a).mp hr
        exact ⟨W ++ [b], isWalk_snoc hw (mem_predList.mp hc), by
          simpa using Nat.succ_le_succ hlen⟩
    · rintro ⟨W, hw, hlen⟩
      rcases List.eq_nil_or_concat W with rfl | ⟨W₀, x, rfl⟩
      · simp [IsWalk] at hw
      · rw [List.concat_eq_append] at hw hlen
        obtain ⟨hC, hh, hl⟩ := hw
        rw [List.getLast?_concat] at hl
        obtain rfl : x = b := Option.some.inj hl
        rcases List.eq_nil_or_concat W₀ with rfl | ⟨W₁, c, rfl⟩
        · simp only [List.nil_append, List.head?_cons] at hh
          exact Or.inl (Option.some.inj hh)
        · rw [List.concat_eq_append] at hC hh hlen
          have hsplit := List.chain'_append.mp hC
          have hlast : ((W₁ ++ [c]).getLast? = some c) := List.getLast?_concat _
          have hedge : edgeRel G c x := hsplit.2.2 c hlast x rfl
          refine Or.inr ⟨c, mem_predList.mpr hedge, ?_⟩
          refine (ih c a).mpr ⟨W₁ ++ [c], ⟨hsplit.1, ?_, hlast⟩, ?_⟩
          · rw [head?_append_of_ne_nil _ _ (by simp)] at hh
            exact hh
          · simp only [List.length_append, List.length_cons,
              List.length_nil] at hlen ⊢
            omega

/-- Every vertex of a walk with at least one edge is a vertex of the graph. -/
theorem walk_subset_vertexList {G : Graph} :
    ∀ W : List String, W.Chain' (edgeRel G) → 2 ≤ W.length →
      ∀ x ∈ W, x ∈ G.vertexList
  | [], _, hlen => by simp at hlen
  | [_], _, hlen => by simp at hlen
  | u :: v :: rest, hC, _ => by
    have he : edgeRel G u v := (List.chain'_cons.mp hC).1
    intro x hx
    rcases List.mem_cons.mp hx with rfl | hx'
    · exact mem_vertexList_fst he
    · cases rest with
      | nil =>
        rcases List.mem_singleton.mp hx' with rfl
        exact mem_vertexList_snd he
      | cons w ws =>
        exact walk_subset_vertexList (v :: w :: ws)
          (List.chain'_cons.mp hC).2 (by simp) x hx'

/-- A list that is not duplicate-free contains the same element twice:
it splits around two occurrences of some `x`. -/
theorem exists_dup_decomp {α : Type} [DecidableEq α] :
    ∀ {l : List α}, ¬ l.Nodup →
      ∃ (x : α) (L₁ L₂ L₃ : List α), l = L₁ ++ x :: L₂ ++ x :: L₃ := by
  intro l
  induction l with
  | nil => intro h; exact absurd List.nodup_nil h
  | cons y t ih =>
    intro h
    by_cases hy : y ∈ t
    · obtain ⟨s, u, rfl⟩ := List.append_of_mem hy
      exact ⟨y, [], s, u, by simp⟩
    · have ht : ¬ t.Nodup := fun hn => h (List.nodup_cons.mpr ⟨hy, hn⟩)
      obtain ⟨x, L₁, L₂, L₃, rfl⟩ := ih ht
      exact ⟨x, y :: L₁, L₂, L₃, by simp⟩

/-- Cutting the loop between two occurrences of the same vertex preserves
the chain property. -/
theorem chain'_cut {α : Type} {R : α → α → Prop} {x : α} {L₁ L₂ L₃ : List α}
    (h : List.Chain' R (L₁ ++ x :: L₂ ++ x :: L₃)) :
    List.Chain' R (L₁ ++ x :: L₃) := by
  have h1 : List.Chain' R ((L₁ ++ x :: L₂) ++ x :: L₃) := by
    simpa [List.append_assoc] using h
  have h2 := List.chain'_split.mp h1
  have h3 : List.Chain' R (L₁ ++ x :: (L₂ ++ [x])) := by
    simpa [List.append_assoc] using h2.1
  have h4 := List.chain'_split.mp h3
  exact List.chain'_split.mpr ⟨h4.1, h2.2⟩

theorem getLast?_append_cons {α : Type} (L M : List α) (x : α) :
    (L ++ x :: M).getLast? = (x :: M).getLast? := by
  rw [List.getLast?_append]
  obtain ⟨v, hv⟩ : ∃ v, (x :: M).getLast? = some v :=
    ⟨_, List.getLast?_eq_getLast _ (by simp)⟩
  rw [hv]
  rfl

theorem head?_cut {α : Type} (L₁ L₂ L₃ : List α) (x : α) :
    (L₁ ++ x :: L₃).head? = (L₁ ++ x :: L₂ ++ x :: L₃).head? := by
  cases L₁ with
  | nil => rfl
  | cons a t => rfl

theorem getLast?_cut {α : Type} (L₁ L₂ L₃ : List α) (x : α) :
    (L₁ ++ x :: L₃).getLast? = (L₁ ++ x :: L₂ ++ x :: L₃).getLast? := by
  rw [getLast?_append_cons L₁ L₃ x]
  rw [show L₁ ++ x :: L₂ ++ x :: L₃ = L₁ ++ x :: (L₂ ++ x :: L₃) by simp]
  rw [getLast?_append_cons L₁ (L₂ ++ x :: L₃) x]
  rw [show x :: (L₂ ++ x :: L₃) = (x :: L₂) ++ x :: L₃ by simp]
  rw [getLast?_append_cons (x :: L₂) L₃ x]

/-- Any walk can be shortened to a walk of at most `G.bound` edges
(`G.bound + 1` vertices) with the same endpoints, by repeatedly cutting
loops at duplicated vertices. -/
theorem isWalk_shorten {G : Graph} :
    ∀ (n : Nat) (W : List String) (a b : String), W.length ≤ n →
      IsWalk G W a b → ∃ W', IsWalk G W' a b ∧ W'.length ≤ G.bound + 1 := by
  intro n
  induction n with
  | zero =>
    intro W a b hlen hw
    match W, hlen with
    | [], _ => simp [IsWalk] at hw
  | succ n ih =>
    intro W a b hlen hw
    by_cases hnd : W.Nodup
    · rcases Nat.lt_or_ge W.length 2 with hsmall | hbig
      · exact ⟨W, hw, by omega⟩
      · have hsub : ∀ x ∈ W, x ∈ G.vertexList :=
          walk_subset_vertexList W hw.1 hbig
        have hle : W.length ≤ G.bound :=
          (List.subperm_of_subset hnd hsub).length_le
        exact ⟨W, hw, by omega⟩
    · obtain ⟨x, L₁, L₂, L₃, rfl⟩ := exists_dup_decomp hnd
      obtain ⟨hC, hh, hl⟩ := hw
      refine ih (L₁ ++ x :: L₃) a b ?_ ⟨chain'_cut hC, ?_, ?_⟩
      · have h5 : (L₁ ++ x :: L₂ ++ x :: L₃).length ≤ n + 1 := hlen
        simp only [List.length_append, List.length_cons] at h5 ⊢
        omega
      · rw [head?_cut L₁ L₂ L₃ x]
        exact hh
      · rw [getLast?_cut L₁ L₂ L₃ x]
        exact hl

theorem reaches_of_chain {G : Graph} :
    ∀ (W : List String) (b : String), W.Chain' (edgeRel G) →
      W.getLast? = some b → ∀ a, W.head? = some a → Reaches G a b
  | [], _, _, hl => by simp at hl
  | [x], b, _, hl => fun a hh => by
    have hab : a = b := ((Option.some.inj hh).symm.trans (Option.some.inj hl))
    exact hab ▸ Relation.ReflTransGen.refl
  | u :: v :: rest, b, hC, hl => fun a hh => by
    have hua : u = a := Option.some.inj hh
    have he : edgeRel G u v := (List.chain'_cons.mp hC).1
    have htail : Reaches G v b :=
      reaches_of_chain (v :: rest) b (List.chain'_cons.mp hC).2
        (by rw [List.getLast?_cons_cons] at hl; exact hl) v rfl
    exact hua ▸ Relation.ReflTransGen.head he htail

/-- Reachability is witnessed by a walk. -/
theorem reaches_iff_exists_walk {G : Graph} {a b : String} :
    Reaches G a b ↔ ∃ W, IsWalk G W a b := by
  constructor
  · intro h
    induction h with
    | refl => exact ⟨[a], isWalk_singleton⟩
    | tail _ he ih =>
      obtain ⟨W, hw⟩ := ih
      exact ⟨W ++ [_], isWalk_snoc hw he⟩
  · rintro ⟨W, hw⟩
    exact reaches_of_chain W b hw.1 hw.2.2 a hw.2.1

/-- The forward search with the vertex-count fuel decides reachability. -/
theorem reachF_bound_iff {G : Graph} {a b : String} :
    reachF G G.bound a b = true ↔ Reaches G a b := by
  constructor
  · intro h
    obtain ⟨W, hw, -⟩ := (reachF_iff G.bound a b).mp h
    exact reaches_iff_exists_walk.mpr ⟨W, hw⟩
  · intro h
    obtain ⟨W, hw⟩ := reaches_iff_exists_walk.mp h
    obtain ⟨W', hw', hlen⟩ := isWalk_shorten W.length W a b le_rfl hw
    exact (reachF_iff G.bound a b).mpr ⟨W', hw', hlen⟩

/-- The backward search with the vertex-count fuel decides reachability. -/
theorem reachBF_bound_iff {G : Graph} {a b : String} :
    reachBF G G.bound b a = true ↔ Reaches G a b := by
  constructor
  · intro h
    obtain ⟨W, hw, -⟩ := (reachBF_iff G.bound b a).mp h
    exact reaches_iff_exists_walk.mpr ⟨W, hw⟩
  · intro h
    obtain ⟨W, hw⟩ := reaches_iff_exists_walk.mp h
    obtain ⟨W', hw', hlen⟩ := isWalk_shorten W.length W a b le_rfl hw
    exact (reachBF_iff G.bound b a).mpr ⟨W', hw', hlen⟩

theorem mem_vertexList_of_reaches_ne {G : Graph} {a b : String}
    (h : Reaches G a b) (hne : a ≠ b) :
    a ∈ G.vertexList ∧ b ∈ G.vertexList := by
  obtain ⟨W, hw⟩ := reaches_iff_exists_walk.mp h
  match W with
  | [] => simp [IsWalk] at hw
  | [x] => exact absurd (isWalk_single_eq hw) hne
  | u :: v :: rest =>
    have hsub := walk_subset_vertexList (u :: v :: rest) hw.1 (by simp)
    refine ⟨hsub a ?_, hsub b (List.mem_of_getLast?_eq_some hw.2.2)⟩
    have : u = a := Option.some.inj hw.2.1
    exact this ▸ List.mem_cons_self u _

/-- The executable `descList` computes exactly the specified descendant set. -/
theorem mem_descList_iff {G : Graph} {t b : String} :
    b ∈ descList G t ↔ b ∈ descendantsSet G t := by
  simp only [descList, List.mem_filter, Bool.and_eq_true, bne_iff_ne,
    descendantsSet, Set.mem_setOf_eq]
  constructor
  · rintro ⟨-, hne, hr⟩
    exact ⟨hne, reachF_bound_iff.mp hr⟩
  · rintro ⟨hne, hr⟩
    exact ⟨(mem_vertexList_of_reaches_ne hr (Ne.symm hne)).2,
      hne, reachF_bound_iff.mpr hr⟩

/-- The executable `ancList` computes exactly the specified ancestor set. -/
theorem mem_ancList_iff {G : Graph} {t a : String} :
    a ∈ ancList G t ↔ a ∈ ancestorsSet G t := by
  simp only [ancList, List.mem_filter, Bool.and_eq_true, bne_iff_ne,
    ancestorsSet, Set.mem_setOf_eq]
  constructor
  · rintro ⟨-, hne, hr⟩
    exact ⟨hne, reachBF_bound_iff.mp hr⟩
  · rintro ⟨hne, hr⟩
    exact ⟨(mem_vertexList_of_reaches_ne hr hne).1,
      hne, reachBF_bound_iff.mpr hr⟩

theorem descList_subset (G : Graph) (t : String) :
    descList G t ⊆ G.vertexList := List.filter_subset' _

theorem ancList_subset (G : Graph) (t : String) :
    ancList G t ⊆ G.vertexList := List.filter_subset' _

-- Shortest paths (`nx.shortest_path`) --

/-- Search for a walk with exactly `n` edges from `a` to `b`, returning the
first one found in successor order. -/
def pathOfLen (G : Graph) : Nat → String → String → Option (List String)
  | 0, a, b => if a == b then some [a] else none
  | n + 1, a, b =>
    (G.succList a).findSome? (fun c => (pathOfLen G n c b).map (fun p => a :: p))

/-- Embedding of `nx.shortest_path(G, a, b)`: tries walk lengths in
increasing order, so the first hit has minimal length.  (networkx performs a
breadth-first search; the spec claims settled here never depend on which
shortest path is returned, only on it being one.) -/
def shortest_path (G : Graph) (a b : String) : Option (List String) :=
  (List.range (G.bound + 1)).findSome? (fun k => pathOfLen G k a b)

/-- The consecutive pairs of a vertex list, as in the source's
`for i in range(len(path) - 1): highlight_edges.add((path[i], path[i+1]))`. -/
def pathEdges (p : List String) : List (String × String) := p.zip p.tail

theorem pathOfLen_isWalk {G : Graph} :
    ∀ (n : Nat) (a b : String) (p : List String),
      pathOfLen G n a b = some p → IsWalk G p a b := by
  intro n
  induction n with
  | zero =>
    intro a b p h
    simp only [pathOfLen] at h
    by_cases hab : a == b
    · rw [if_pos hab] at h
      cases h
      exact (beq_iff_eq.mp hab) ▸ isWalk_singleton
    · rw [if_neg hab] at h
      cases h
  | succ n ih =>
    intro a b p h
    simp only [pathOfLen] at h
    obtain ⟨c, hc, heq⟩ := List.exists_of_findSome?_eq_some h
    obtain ⟨q, hq, rfl⟩ := Option.map_eq_some'.mp heq
    exact isWalk_cons (mem_succList.mp hc) (ih c b q hq)

theorem chain'_zip_tail {α : Type} {R : α → α → Prop} :
    ∀ {p : List α}, p.Chain' R → ∀ e ∈ p.zip p.tail, R e.1 e.2
  | [], _ => by simp
  | [_], _ => by simp
  | x :: y :: rest, hC => by
    intro e he
    simp only [List.tail_cons, List.zip_cons_cons, List.mem_cons] at he
    rcases he with rfl | he'
    · exact (List.chain'_cons.mp hC).1
    · exact chain'_zip_tail (List.chain'_cons.mp hC).2 e he'

theorem shortest_path_edges_subset {G : Graph} {a b : String}
    {p : List String} (h : shortest_path G a b = some p) :
    ∀ e ∈ pathEdges p, e ∈ G.edgePairs := by
  obtain ⟨k, -, hk⟩ := List.exists_of_findSome?_eq_some h
  exact fun e he => chain'_zip_tail (pathOfLen_isWalk k a b p hk).1 e he

-- The trace-highlight computation (`graph_view.calculate_trace_highlights`) --

/-- Highlight edges collected by the `forward` branch: for each descendant,
the consecutive edges of a shortest path from the target to it (guarded by
`nx.has_path`, exactly as in the source). -/
def traceEdgesF (G : Graph) (t : String) : List (String × String) :=
  (descList G t).flatMap (fun d =>
    if reachF G G.bound t d then
      ((shortest_path G t d).map pathEdges).getD []
    else [])

/-- Highlight edges collected by the `backward` branch: for each ancestor,
the consecutive edges of a shortest path from it to the target. -/
def traceEdgesB (G : Graph) (t : String) : List (String × String) :=
  (ancList G t).flatMap (fun a =>
    if reachF G G.bound a t then
      ((shortest_path G a t).map pathEdges).getD []
    else [])

/-- Embedding of `calculate_trace_highlights(G, target_batch_id, trace_mode)`.
Mirrors the source exactly: the highlight sets start empty; when the target
is truthy (nonempty) and present in the graph it is added to the node set
unconditionally; the `forward`/`both` branch adds `nx.descendants` and
shortest-path edges to them; the `backward`/`both` branch adds
`nx.ancestors` and shortest-path edges from them.  Python's `set`s are
modelled as deduplicated lists. -/
def calculate_trace_highlights (G : Graph) (target : Option String)
    (mode : String) : List String × List (String × String) :=
  match target with
  | none => ([], [])
  | some t =>
    if t != "" && G.vertexList.contains t then
      ((([t]
          ++ (if mode == "forward" || mode == "both" then descList G t else [])
          ++ (if mode == "backward" || mode == "both" then ancList G t else [])).dedup),
        (((if mode == "forward" || mode == "both" then traceEdgesF G t else [])
          ++ (if mode == "backward" || mode == "both" then traceEdgesB G t else [])).dedup))
    else ([], [])

-- The concrete dataset and graph builder (`model.py`) --

/-- Python `dict.update` on attribute dictionaries: each new key/value
replaces an existing binding for the key or is appended. -/
def updateAttrs (old new : Attrs) : Attrs :=
  new.foldl (fun acc kv =>
    if acc.any (fun p => p.1 == kv.1) then
      acc.map (fun p => if p.1 == kv.1 then kv else p)
    else acc ++ [kv]) old

/-- Whether `i` is a node of the graph (networkx `i in G.nodes()`). -/
def hasNode (G : Graph) (i : String) : Bool :=
  G.nodes.any (fun p => p.1 == i)

/-- networkx `G.add_node(i, **a)`: inserts the node, or merges the
attributes into an existing node of the same id. -/
def addNode (G : Graph) (i : String) (a : Attrs) : Graph :=
  if hasNode G i then
    { G with nodes := G.nodes.map (fun p =>
        if p.1 == i then (p.1, updateAttrs p.2 a) else p) }
  else { G with nodes := G.nodes ++ [(i, a)] }

/-- networkx inserts missing edge endpoints as attribute-less nodes. -/
def ensureNode (G : Graph) (i : String) : Graph :=
  if hasNode G i then G else { G with nodes := G.nodes ++ [(i, [])] }

def hasEdge (G : Graph) (u v : String) : Bool :=
  G.edges.any (fun e => e.1 == u && e.2.1 == v)

/-- networkx `G.add_edge(u, v, **a)`: inserts endpoints as needed, then
inserts the edge or merges attributes into an existing parallel edge. -/
def addEdge (G : Graph) (u v : String) (a : Attrs) : Graph :=
  let G1 := ensureNode (ensureNode G u) v
  if hasEdge G1 u v then
    { G1 with edges := G1.edges.map (fun e =>
        if e.1 == u && e.2.1 == v then (u, v, updateAttrs e.2.2 a) else e) }
  else { G1 with edges := G1.edges ++ [(u, v, a)] }

/-- The thirteen batch records of `model.create_sample_data`, keyed by
`batch_id`, with the remaining attributes in source order plus the
`manufacturing_date` the function computes per row (2024-01-01 plus 7·i
days for row i).  Numbers are rendered as decimal strings.  The NaN values
that `pandas` pads into columns absent from a record's category are
omitted as semantically absent. -/
def sampleRecords : List (String × Attrs) := [
  ("RM-API-001", [("type", "Raw Material"), ("material", "Paracetamol API"),
    ("quantity", "100"), ("unit", "kg"), ("status", "Approved"),
    ("quality", "A"), ("lot", "LOT-API-2024-001"),
    ("manufacturer", "API Corp"), ("manufacturing_date", "2024-01-01")]),
  ("RM-EXC-001", [("type", "Raw Material"),
    ("material", "Microcrystalline Cellulose"), ("quantity", "200"),
    ("unit", "kg"), ("status", "Approved"), ("quality", "A"),
    ("lot", "LOT-EXC-2024-001"), ("manufacturer", "Excipient Co"),
    ("manufacturing_date", "2024-01-08")]),
  ("RM-EXC-002", [("type", "Raw Material"),
    ("material", "Croscarmellose Sodium"), ("quantity", "50"),
    ("unit", "kg"), ("status", "Approved"), ("quality", "A"),
    ("lot", "LOT-EXC-2024-002"), ("manufacturer", "Excipient Co"),
    ("manufacturing_date", "2024-01-15")]),
  ("RM-EXC-003", [("type", "Raw Material"),
    ("material", "Magnesium Stearate"), ("quantity", "10"), ("unit", "kg"),
    ("status", "Approved"), ("quality", "A"), ("lot", "LOT-EXC-2024-003"),
    ("manufacturer", "Excipient Co"), ("manufacturing_date", "2024-01-22")]),
  ("RM-SOL-001", [("type", "Raw Material"), ("material", "Purified Water"),
    ("quantity", "500"), ("unit", "L"), ("status", "Approved"),
    ("quality", "A"), ("lot", "LOT-SOL-2024-001"),
    ("manufacturer", "Water Co"), ("manufacturing_date", "2024-01-29")]),
  ("INT-BLEND-001", [("type", "Intermediate"),
    ("material", "Paracetamol Blend"), ("quantity", "150"), ("unit", "kg"),
    ("status", "In Progress"), ("quality", "A"),
    ("product", "Paracetamol 500mg"), ("manufacturing_date", "2024-02-05")]),
  ("INT-GRAN-001", [("type", "Intermediate"),
    ("material", "Wet Granulation"), ("quantity", "160"), ("unit", "kg"),
    ("status", "In Progress"), ("quality", "A"),
    ("product", "Paracetamol 500mg"), ("manufacturing_date", "2024-02-12")]),
  ("INT-BLEND-002", [("type", "Intermediate"),
    ("material", "Antibiotic Blend"), ("quantity", "120"), ("unit", "kg"),
    ("status", "In Progress"), ("quality", "A"),
    ("product", "Antibiotic 250mg"), ("manufacturing_date", "2024-02-19")]),
  ("INT-SOL-001", [("type", "Intermediate"),
    ("material", "Coating Solution"), ("quantity", "80"), ("unit", "L"),
    ("status", "Ready"), ("quality", "A"), ("product", "Film Coating"),
    ("manufacturing_date", "2024-02-26")]),
  ("FP-TAB-001", [("type", "Finished Product"),
    ("material", "Paracetamol 500mg Tablets"), ("quantity", "100000"),
    ("unit", "tablets"), ("status", "Released"), ("quality", "A"),
    ("product", "Paracetamol 500mg"), ("expiry_date", "2025-12-31"),
    ("manufacturing_date", "2024-03-04")]),
  ("FP-TAB-002", [("type", "Finished Product"),
    ("material", "Paracetamol 500mg Tablets"), ("quantity", "150000"),
    ("unit", "tablets"), ("status", "Released"), ("quality", "A"),
    ("product", "Paracetamol 500mg"), ("expiry_date", "2025-12-31"),
    ("manufacturing_date", "2024-03-11")]),
  ("FP-TAB-003", [("type", "Finished Product"),
    ("material", "Antibiotic 250mg Tablets"), ("quantity", "80000"),
    ("unit", "tablets"), ("status", "Released"), ("quality", "A"),
    ("product", "Antibiotic 250mg"), ("expiry_date", "2025-10-31"),
    ("manufacturing_date", "2024-03-18")]),
  ("FP-CAP-001", [("type", "Finished Product"),
    ("material", "Vitamin C 500mg Capsules"), ("quantity", "50000"),
    ("unit", "capsules"), ("status", "Released"), ("quality", "A"),
    ("product", "Vitamin C 500mg"), ("expiry_date", "2025-09-30"),
    ("manufacturing_date", "2024-03-25")])]

/-- Raw material to intermediate consumption edges. -/
def raw_to_intermediate : List (String × String × Attrs) := [
  ("RM-API-001", "INT-BLEND-001", [("relationship", "consumed_by"),
    ("quantity", "50"), ("unit", "kg")]),
  ("RM-EXC-001", "INT-BLEND-001", [("relationship", "consumed_by"),
    ("quantity", "80"), ("unit", "kg")]),
  ("RM-EXC-002", "INT-BLEND-001", [("relationship", "consumed_by"),
    ("quantity", "20"), ("unit", "kg")]),
  ("RM-EXC-003", "INT-BLEND-001", [("relationship", "consumed_by"),
    ("quantity", "2"), ("unit", "kg")]),
  ("RM-SOL-001", "INT-BLEND-001", [("relationship", "consumed_by"),
    ("quantity", "40"), ("unit", "L")]),
  ("RM-API-001", "INT-BLEND-002", [("relationship", "consumed_by"),
    ("quantity", "40"), ("unit", "kg")]),
  ("RM-EXC-001", "INT-BLEND-002", [("relationship", "consumed_by"),
    ("quantity", "70"), ("unit", "kg")]),
  ("RM-EXC-002", "INT-BLEND-002", [("relationship", "consumed_by"),
    ("quantity", "15"), ("unit", "kg")])]

/-- Intermediate to intermediate production edge. -/
def intermediate_to_intermediate : List (String × String × Attrs) := [
  ("INT-BLEND-001", "INT-GRAN-001", [("relationship", "produces"),
    ("quantity", "150"), ("unit", "kg")])]

/-- Intermediate to finished product edges. -/
def intermediate_to_finished : List (String × String × Attrs) := [
  ("INT-GRAN-001", "FP-TAB-001", [("relationship", "produces"),
    ("quantity", "100000"), ("unit", "tablets")]),
  ("INT-GRAN-001", "FP-TAB-002", [("relationship", "produces"),
    ("quantity", "150000"), ("unit", "tablets")]),
  ("INT-BLEND-002", "FP-TAB-003", [("relationship", "produces"),
    ("quantity", "80000"), ("unit", "tablets")]),
  ("INT-SOL-001", "FP-TAB-001", [("relationship", "coated_with"),
    ("quantity", "20"), ("unit", "L")]),
  ("INT-SOL-001", "FP-TAB-002", [("relationship", "coated_with"),
    ("quantity", "30"), ("unit", "L")]),
  ("INT-SOL-001", "FP-TAB-003", [("relationship", "coated_with"),
    ("quantity", "15"), ("unit", "L")])]

/-- The "additional random relationships", added only when both endpoints
are already nodes of the graph. -/
def additional_relationships : List (String × String × Attrs) := [
  ("RM-API-001", "INT-SOL-001", [("relationship", "consumed_by"),
    ("quantity", "5"), ("unit", "kg")]),
  ("RM-SOL-001", "INT-SOL-001", [("relationship", "consumed_by"),
    ("quantity", "75"), ("unit", "L")]),
  ("RM-EXC-001", "FP-CAP-001", [("relationship", "consumed_by"),
    ("quantity", "30"), ("unit", "kg")])]

def all_edges : List (String × String × Attrs) :=
  raw_to_intermediate ++ intermediate_to_intermediate
    ++ intermediate_to_finished

/-- Embedding of `model.build_batch_genealogy_graph`: adds one node per
record of the sample data (attributes minus the `batch_id` key), then the
declared edges, then the additional relationships guarded by the node
membership check.  Returns the graph and the dataset, as the source does. -/
def build_batch_genealogy_graph : Graph × List (String × Attrs) :=
  let G0 : Graph := ⟨[], []⟩
  let G1 := sampleRecords.foldl (fun G r => addNode G r.1 r.2) G0
  let G2 := all_edges.foldl (fun G e => addEdge G e.1 e.2.1 e.2.2) G1
  let G3 := additional_relationships.foldl
    (fun G e => if hasNode G e.1 && hasNode G e.2.1 then
        addEdge G e.1 e.2.1 e.2.2
      else G) G2
  (G3, sampleRecords)

/-- The genealogy graph the application works on. -/
def builtGraph : Graph := build_batch_genealogy_graph.1

/-- Attribute lookup in a dictionary. -/
def lookupAttr (a : Attrs) (k : String) : Option String :=
  (a.find? (fun kv => kv.1 == k)).map Prod.snd

/-- The attribute dictionary of node `i` (empty if absent). -/
def nodeAttrs (G : Graph) (i : String) : Attrs :=
  ((G.nodes.find? (fun p => p.1 == i)).map Prod.snd).getD []

/-- Manufacturing stage of a batch type tag, ordered along the material
flow raw material, then intermediate, then finished product. -/
def stage (ty : String) : Nat :=
  if ty == "Raw Material" then 0
  else if ty == "Intermediate" then 1
  else if ty == "Finished Product" then 2
  else 3

/-- Manufacturing stage of a node, read off its `type` attribute. -/
def stageOf (G : Graph) (i : String) : Nat :=
  stage ((lookupAttr (nodeAttrs G i) "type").getD "")

/-- A strict topological rank for the built graph: raw materials, first
blends/solutions, granulation, finished products. -/
def rankTable : List (String × Nat) := [
  ("RM-API-001", 0), ("RM-EXC-001", 0), ("RM-EXC-002", 0),
  ("RM-EXC-003", 0), ("RM-SOL-001", 0),
  ("INT-BLEND-001", 1), ("INT-BLEND-002", 1), ("INT-SOL-001", 1),
  ("INT-GRAN-001", 2),
  ("FP-TAB-001", 3), ("FP-TAB-002", 3), ("FP-TAB-003", 3), ("FP-CAP-001", 3)]

def rank (i : String) : Nat :=
  ((rankTable.find? (fun p => p.1 == i)).map Prod.snd).getD 0

/-- Embedding of `model.get_bom_list`: a hardcoded sample bill of
materials for three known finished products, an empty list otherwise.
Each entry is the attribute dictionary of one DataFrame row; the columns
are `material`, `batch_id`, `quantity`, `unit`, `type`, `status` — the
source computes no `level` column. -/
def get_bom_list (batch_id : String) : List Attrs :=
  if batch_id == "FP-TAB-001" then [
    [("material", "Paracetamol API"), ("batch_id", "RM-API-001"),
      ("quantity", "25"), ("unit", "kg"), ("type", "Raw Material"),
      ("status", "Approved")],
    [("material", "Microcrystalline Cellulose"), ("batch_id", "RM-EXC-001"),
      ("quantity", "40"), ("unit", "kg"), ("type", "Raw Material"),
      ("status", "Approved")],
    [("material", "Croscarmellose Sodium"), ("batch_id", "RM-EXC-002"),
      ("quantity", "10"), ("unit", "kg"), ("type", "Raw Material"),
      ("status", "Approved")],
    [("material", "Magnesium Stearate"), ("batch_id", "RM-EXC-003"),
      ("quantity", "1"), ("unit", "kg"), ("type", "Raw Material"),
      ("status", "Approved")],
    [("material", "Purified Water"), ("batch_id", "RM-SOL-001"),
      ("quantity", "20"), ("unit", "L"), ("type", "Raw Material"),
      ("status", "Approved")]]
  else if batch_id == "FP-TAB-002" then [
    [("material", "Paracetamol API"), ("batch_id", "RM-API-001"),
      ("quantity", "37.5"), ("unit", "kg"), ("type", "Raw Material"),
      ("status", "Approved")],
    [("material", "Microcrystalline Cellulose"), ("batch_id", "RM-EXC-001"),
      ("quantity", "60"), ("unit", "kg"), ("type", "Raw Material"),
      ("status", "Approved")],
    [("material", "Croscarmellose Sodium"), ("batch_id", "RM-EXC-002"),
      ("quantity", "15"), ("unit", "kg"), ("type", "Raw Material"),
      ("status", "Approved")],
    [("material", "Magnesium Stearate"), ("batch_id", "RM-EXC-003"),
      ("quantity", "1.5"), ("unit", "kg"), ("type", "Raw Material"),
      ("status", "Approved")]]
  else if batch_id == "FP-TAB-003" then [
    [("material", "Antibiotic API"), ("batch_id", "RM-API-001"),
      ("quantity", "20"), ("unit", "kg"), ("type", "Raw Material"),
      ("status", "Approved")],
    [("material", "Microcrystalline Cellulose"), ("batch_id", "RM-EXC-001"),
      ("quantity", "35"), ("unit", "kg"), ("type", "Raw Material"),
      ("status", "Approved")],
    [("material", "Croscarmellose Sodium"), ("batch_id", "RM-EXC-002"),
      ("quantity", "7.5"), ("unit", "kg"), ("type", "Raw Material"),
      ("status", "Approved")]]
  else []

-- The mock genealogy database (`data_mock.py`) --

/-- One genealogy record of the mock batch database: the batch header
dictionary, the consumed material entries, the produced product entries,
and the parent/child batch id lists. -/
structure MockBatch where
  batch : Attrs
  consumes : List Attrs
  produces : List Attrs
  parents : List String
  children : List String
deriving DecidableEq, Repr

/-- The `B001` record of the mock database. -/
def b001Record : MockBatch := {
  batch := [("id", "B001"), ("product", "Tablet_A"), ("status", "Completed"),
    ("manufacturing_date", "2026-01-07"), ("quantity", "100,000 tablets"),
    ("lot_number", "LOT20260107A")],
  consumes := [
    [("material_batch", "API-2025-12-15"),
      ("material_name", "Active Pharmaceutical Ingredient"),
      ("quantity", "500 kg"), ("specification", "API-001-SPEC"),
      ("supplier", "Supplier_A"), ("type", "raw")],
    [("material_batch", "EXC-2026-01-02"),
      ("material_name", "Excipient Blend"), ("quantity", "950 kg"),
      ("specification", "EXC-002-SPEC"), ("supplier", "Supplier_B"),
      ("type", "intermediate")],
    [("material_batch", "COA-2025-11-30"),
      ("material_name", "Coating Solution"), ("quantity", "200 L"),
      ("specification", "COA-003-SPEC"), ("supplier", "Supplier_C"),
      ("type", "raw")]],
  produces := [
    [("product_batch", "FIN-2026-01-10"),
      ("product_name", "Finished Tablets"), ("quantity", "100,000 bottles"),
      ("specification", "FIN-001-SPEC")]],
  parents := ["API-2025-12-15", "EXC-2026-01-02"],
  children := ["FIN-2026-01-10"] }

def apiRecord : MockBatch := {
  batch := [("id", "API-2025-12-15"),
    ("product", "Active Pharmaceutical Ingredient"),
    ("status", "Completed"), ("manufacturing_date", "2025-12-15"),
    ("quantity", "1000 kg"), ("lot_number", "LOT20251215API")],
  consumes := [
    [("material_batch", "RAW-001"),
      ("material_name", "Chemical Precursor A"), ("quantity", "1200 kg"),
      ("type", "raw")],
    [("material_batch", "RAW-002"), ("material_name", "Solvent B"),
      ("quantity", "5000 L"), ("type", "raw")]],
  produces := [
    [("product_batch", "API-2025-12-15"),
      ("product_name", "Active Pharmaceutical Ingredient"),
      ("quantity", "1000 kg")]],
  parents := ["RAW-001", "RAW-002"],
  children := ["B001", "B002"] }

def excRecord : MockBatch := {
  batch := [("id", "EXC-2026-01-02"), ("product", "Excipient Blend"),
    ("status", "Completed"), ("manufacturing_date", "2026-01-02"),
    ("quantity", "2000 kg"), ("lot_number", "LOT20260102EXC")],
  consumes := [
    [("material_batch", "MCC-2025-12-20"),
      ("material_name", "Microcrystalline Cellulose"),
      ("quantity", "800 kg"), ("type", "raw")],
    [("material_batch", "LAC-2025-12-22"),
      ("material_name", "Lactose Monohydrate"), ("quantity", "700 kg"),
      ("type", "raw")],
    [("material_batch", "MGS-2025-12-18"),
      ("material_name", "Magnesium Stearate"), ("quantity", "500 kg"),
      ("type", "raw")]],
  produces := [
    [("product_batch", "EXC-2026-01-02"),
      ("product_name", "Excipient Blend"), ("quantity", "2000 kg")]],
  parents := ["MCC-2025-12-20", "LAC-2025-12-22", "MGS-2025-12-18"],
  children := ["B001", "B003"] }

def finRecord : MockBatch := {
  batch := [("id", "FIN-2026-01-10"), ("product", "Finished Tablets"),
    ("status", "Released"), ("manufacturing_date", "2026-01-10"),
    ("quantity", "100,000 bottles"), ("lot_number", "LOT20260110FIN")],
  consumes := [
    [("material_batch", "B001"), ("material_name", "Tablet Cores"),
      ("quantity", "100,000 tablets"), ("type", "intermediate")],
    [("material_batch", "PKG-2026-01-09"),
      ("material_name", "Packaging Material"), ("quantity", "100,000 units"),
      ("type", "packaging")]],
  produces := [
    [("product_batch", "FIN-2026-01-10"),
      ("product_name", "Finished Product"), ("quantity", "100,000 bottles"),
      ("customer", "Hospital Chain XYZ"), ("expiry_date", "2027-07-10")]],
  parents := ["B001", "PKG-2026-01-09"],
  children := [] }

/-- The mock batch database of `data_mock.load_mock_batch`, in source
order. -/
def batch_db : List (String × MockBatch) := [
  ("B001", b001Record), ("API-2025-12-15", apiRecord),
  ("EXC-2026-01-02", excRecord), ("FIN-2026-01-10", finRecord)]

/-- Result of `load_mock_batch`: either all records (for `"ALL"`) or a
single record. -/
inductive LoadResult where
  | all : List MockBatch → LoadResult
  | single : MockBatch → LoadResult
deriving DecidableEq, Repr

/-- Embedding of `data_mock.load_mock_batch`: returns the record list for
`"ALL"`, otherwise `batch_db.get(batch_id, batch_db["B001"])` — the keyed
record if present, and the `B001` record as the default for every other
argument. -/
def load_mock_batch (batch_id : String) : LoadResult :=
  if batch_id == "ALL" then .all (batch_db.map Prod.snd)
  else .single ((batch_db.lookup batch_id).getD b001Record)

-- State-passing reading of the trace computation (read-only frame) --

/-- `nx.descendants(G, t)` as a call on the graph state: returns its result
and the graph it leaves behind (the traversal only reads `G`). -/
def nx_descendants_call (G : Graph) (t : String) : List String × Graph :=
  (descList G t, G)

/-- `nx.ancestors(G, t)` as a call on the graph state. -/
def nx_ancestors_call (G : Graph) (t : String) : List String × Graph :=
  (ancList G t, G)

/-- `nx.has_path(G, a, b)` as a call on the graph state. -/
def nx_has_path_call (G : Graph) (a b : String) : Bool × Graph :=
  (reachF G G.bound a b, G)

/-- `nx.shortest_path(G, a, b)` as a call on the graph state. -/
def nx_shortest_path_call (G : Graph) (a b : String) :
    Option (List String) × Graph :=
  (shortest_path G a b, G)

/-- One iteration of the source's per-descendant (or per-ancestor) loop:
a `has_path` call on the current graph state, and on success a
`shortest_path` call whose edges are appended to the accumulator. -/
def collectStep (acc : List (String × String) × Graph)
    (ab : String × String) : List (String × String) × Graph :=
  let r1 := nx_has_path_call acc.2 ab.1 ab.2
  if r1.1 then
    let r2 := nx_shortest_path_call r1.2 ab.1 ab.2
    (acc.1 ++ (r2.1.map pathEdges).getD [], r2.2)
  else (acc.1, r1.2)

/-- The source's path loop, threading the graph through each library call
while accumulating the highlight edges. -/
def collectPathEdgesSt (G : Graph) (pairs : List (String × String)) :
    List (String × String) × Graph :=
  pairs.foldl collectStep ([], G)

theorem collectStep_eq (acc : List (String × String)) (G : Graph)
    (ab : String × String) :
    collectStep (acc, G) ab =
      (acc ++ (if reachF G G.bound ab.1 ab.2 then
        ((shortest_path G ab.1 ab.2).map pathEdges).getD [] else []), G) := by
  unfold collectStep nx_has_path_call nx_shortest_path_call
  by_cases h : reachF G G.bound ab.1 ab.2 = true
  · simp [h]
  · simp [h]

theorem collect_aux (G : Graph) :
    ∀ (ps : List (String × String)) (acc : List (String × String)),
      ps.foldl collectStep (acc, G) =
      (acc ++ ps.flatMap (fun ab =>
        if reachF G G.bound ab.1 ab.2 then
          ((shortest_path G ab.1 ab.2).map pathEdges).getD []
        else []), G) := by
  intro ps
  induction ps with
  | nil => intro acc; simp
  | cons p ps ih =>
    intro acc
    rw [List.foldl_cons, collectStep_eq, ih]
    simp [List.append_assoc]

theorem collectPathEdgesSt_eq (G : Graph) (ps : List (String × String)) :
    collectPathEdgesSt G ps =
      (ps.flatMap (fun ab =>
        if reachF G G.bound ab.1 ab.2 then
          ((shortest_path G ab.1 ab.2).map pathEdges).getD []
        else []), G) := by
  unfold collectPathEdgesSt
  simpa using collect_aux G ps []

/-- Embedding of `calculate_trace_highlights` with the graph threaded
through every library call it makes, in source order: the membership test,
`nx.descendants` and the forward path loop, then `nx.ancestors` and the
backward path loop. -/
def calculate_trace_highlights_st (G : Graph) (target : Option String)
    (mode : String) : (List String × List (String × String)) × Graph :=
  match target with
  | none => (([], []), G)
  | some t =>
    if t != "" && G.vertexList.contains t then
      let fOn := mode == "forward" || mode == "both"
      let bOn := mode == "backward" || mode == "both"
      let r1 := if fOn then nx_descendants_call G t else ([], G)
      let r2 := if fOn then
          collectPathEdgesSt r1.2 (r1.1.map (fun d => (t, d)))
        else ([], r1.2)
      let r3 := if bOn then nx_ancestors_call r2.2 t else ([], r2.2)
      let r4 := if bOn then
          collectPathEdgesSt r3.2 (r3.1.map (fun a => (a, t)))
        else ([], r3.2)
      ((([t] ++ r1.1 ++ r3.1).dedup, (r2.1 ++ r4.1).dedup), r4.2)
    else (([], []), G)

-- Helper lemmas about the trace computation --

theorem traceEdgesF_subset (G : Graph) (t : String) :
    ∀ e ∈ traceEdgesF G t, e ∈ G.edgePairs := by
  intro e he
  obtain ⟨d, -, he2⟩ := List.mem_flatMap.mp he
  by_cases hr : reachF G G.bound t d = true
  · rw [if_pos hr] at he2
    cases hsp : shortest_path G t d with
    | none => rw [hsp] at he2; simp at he2
    | some p =>
      rw [hsp] at he2
      simp only [Option.map_some', Option.getD_some] at he2
      exact shortest_path_edges_subset hsp e he2
  · rw [if_neg hr] at he2
    simp at he2

theorem traceEdgesB_subset (G : Graph) (t : String) :
    ∀ e ∈ traceEdgesB G t, e ∈ G.edgePairs := by
  intro e he
  obtain ⟨d, -, he2⟩ := List.mem_flatMap.mp he
  by_cases hr : reachF G G.bound d t = true
  · rw [if_pos hr] at he2
    cases hsp : shortest_path G d t with
    | none => rw [hsp] at he2; simp at he2
    | some p =>
      rw [hsp] at he2
      simp only [Option.map_some', Option.getD_some] at he2
      exact shortest_path_edges_subset hsp e he2
  · rw [if_neg hr] at he2
    simp at he2

theorem trace_guard_true {G : Graph} {t : String}
    (h1 : t ≠ "") (h2 : t ∈ G.vertexList) :
    (t != "" && G.vertexList.contains t) = true := by
  simp [h1, h2]

theorem trace_guard_false {G : Graph} {t : String} (h : t ∉ G.vertexList) :
    (t != "" && G.vertexList.contains t) = false := by
  simp [h]

-- C1 --

/-- C1 counterexample: on the built genealogy graph, with the target
`FP-TAB-001` present, `calculate_trace_highlights` with `trace_mode="none"`
does NOT return an empty highlight node set: the source adds the target to
`highlight_nodes` before inspecting the trace mode. -/
theorem C1_trace_none_counterexample :
    (calculate_trace_highlights builtGraph (some "FP-TAB-001") "none").1 ≠ [] := by
  decide

/-- C1 (amended): for every graph and every nonempty target present in it,
`calculate_trace_highlights` with `trace_mode="none"` returns the highlight
node set containing exactly the target, and an empty highlight edge set. -/
theorem C1_trace_none_highlights (G : Graph) (t : String)
    (h1 : t ≠ "") (h2 : t ∈ G.vertexList) :
    calculate_trace_highlights G (some t) "none" = ([t], []) := by
  simp [calculate_trace_highlights, h1, h2]

/-- C1 witness: the amended statement evaluated on the built graph at
target `FP-TAB-001`. -/
theorem C1_trace_none_highlights_witness :
    ("FP-TAB-001" : String) ≠ "" ∧ "FP-TAB-001" ∈ builtGraph.vertexList ∧
      calculate_trace_highlights builtGraph (some "FP-TAB-001") "none" =
        (["FP-TAB-001"], []) :=
  ⟨by decide, by decide,
    C1_trace_none_highlights builtGraph "FP-TAB-001" (by decide) (by decide)⟩

-- C2 --

/-- C2 counterexample: querying the built graph for an identifier absent
from it silently returns the empty highlight sets; no error of any kind is
raised (the source defines no `UnknownEntityError`). -/
theorem C2_missing_target_counterexample :
    calculate_trace_highlights builtGraph (some "B-MISSING") "both"
      = ([], []) := by
  decide

/-- C2 (amended): for every graph, every target absent from the graph and
every trace mode, `calculate_trace_highlights` returns empty highlight node
and edge sets, without signalling any error. -/
theorem C2_missing_target_empty (G : Graph) (t : String) (mode : String)
    (h : t ∉ G.vertexList) :
    calculate_trace_highlights G (some t) mode = ([], []) := by
  simp [calculate_trace_highlights, h]

/-- C2 witness: the amended statement evaluated on the built graph at an
absent identifier. -/
theorem C2_missing_target_empty_witness :
    "B-ABSENT" ∉ builtGraph.vertexList ∧
      calculate_trace_highlights builtGraph (some "B-ABSENT") "forward"
        = ([], []) :=
  ⟨by decide,
    C2_missing_target_empty builtGraph "B-ABSENT" "forward" (by decide)⟩

-- C3 --

/-- A two-node graph whose downstream node has the empty-string identifier.
networkx accepts `""` as a node id, but the source's truthiness guard
`if target_batch_id and target_batch_id in G.nodes` treats such a target as
no target at all. -/
def emptyIdGraph : Graph := ⟨[("A", []), ("", [])], [("A", "", [])]⟩

/-- C3 counterexample: on a graph that contains the empty-string identifier
as a node, querying trace mode `both` for that (present) target returns an
empty highlight node set, so the set does NOT equal the union of ancestors,
descendants and the target: the target itself is in the claimed union but
not in the computed set. -/
theorem C3_trace_both_counterexample :
    "" ∈ emptyIdGraph.vertexList ∧
      ("" = "" ∨ "" ∈ ancestorsSet emptyIdGraph ""
        ∨ "" ∈ descendantsSet emptyIdGraph "") ∧
      "" ∉ (calculate_trace_highlights emptyIdGraph (some "") "both").1 :=
  ⟨by decide, Or.inl rfl, by decide⟩

/-- C3 (amended): for every graph and every NONEMPTY target present in it,
the highlight node set computed for trace mode `both` consists exactly of
the target together with the specified ancestor and descendant sets
(entities with a directed path to, respectively from, the target).  For an
empty-string target the source's truthiness guard yields empty sets
instead. -/
theorem C3_trace_both_nodes (G : Graph) (t x : String)
    (h1 : t ≠ "") (h2 : t ∈ G.vertexList) :
    x ∈ (calculate_trace_highlights G (some t) "both").1 ↔
      x = t ∨ x ∈ ancestorsSet G t ∨ x ∈ descendantsSet G t := by
  simp only [calculate_trace_highlights]
  rw [if_pos (trace_guard_true h1 h2)]
  have hc1 : (("both" : String) == "forward" || ("both" : String) == "both")
      = true := by decide
  have hc2 : (("both" : String) == "backward" || ("both" : String) == "both")
      = true := by decide
  simp only [hc1, hc2, if_true]
  simp only [List.mem_dedup, List.mem_append, List.mem_singleton,
    mem_descList_iff, mem_ancList_iff]
  tauto

/-- C3 witness: the characterization evaluated on the built graph, target
`FP-TAB-001`, probe `RM-API-001` (an ancestor). -/
theorem C3_trace_both_nodes_witness :
    ("FP-TAB-001" : String) ≠ "" ∧ "FP-TAB-001" ∈ builtGraph.vertexList ∧
      ("RM-API-001" ∈
          (calculate_trace_highlights builtGraph (some "FP-TAB-001") "both").1
        ↔ "RM-API-001" = "FP-TAB-001"
          ∨ "RM-API-001" ∈ ancestorsSet builtGraph "FP-TAB-001"
          ∨ "RM-API-001" ∈ descendantsSet builtGraph "FP-TAB-001") :=
  ⟨by decide, by decide,
    C3_trace_both_nodes builtGraph "FP-TAB-001" "RM-API-001"
      (by decide) (by decide)⟩

-- C4 --

/-- C4: the forward and backward reachability relations computed by the
trace engine are converses: whenever `b` is in the computed descendant list
of `a`, then `a` is in the computed ancestor list of `b`. -/
theorem C4_descendants_ancestors_converse (G : Graph) (a b : String)
    (h : b ∈ descList G a) : a ∈ ancList G b := by
  have hd := mem_descList_iff.mp h
  exact mem_ancList_iff.mpr ⟨Ne.symm hd.1, hd.2⟩

/-- C4 witness: evaluated on the built graph with `a = RM-API-001` and
`b = FP-TAB-001`. -/
theorem C4_descendants_ancestors_converse_witness :
    "FP-TAB-001" ∈ descList builtGraph "RM-API-001" ∧
      "RM-API-001" ∈ ancList builtGraph "FP-TAB-001" :=
  ⟨by decide,
    C4_descendants_ancestors_converse builtGraph "RM-API-001" "FP-TAB-001"
      (by decide)⟩

-- C5 --

/-- C5: for every graph (cyclic ones included), every target and every
trace mode, the trace computation produces finite highlight sets bounded by
the graph itself: every highlighted node is a vertex of the graph and every
highlighted edge is an edge of the graph.  Termination for arbitrary input,
including cyclic graphs, is established by the definitions themselves: the
searches `reachF`/`reachBF` recurse on an explicit fuel bound and
`calculate_trace_highlights` is accepted as a total function. -/
theorem C5_trace_highlights_bounded (G : Graph) (target : Option String)
    (mode : String) :
    (calculate_trace_highlights G target mode).1 ⊆ G.vertexList ∧
    (calculate_trace_highlights G target mode).2 ⊆ G.edgePairs := by
  match target with
  | none => exact ⟨by simp [calculate_trace_highlights],
      by simp [calculate_trace_highlights]⟩
  | some t =>
    simp only [calculate_trace_highlights]
    by_cases hc : (t != "" && G.vertexList.contains t) = true
    · rw [if_pos hc]
      have ht : t ∈ G.vertexList := by
        have := (Bool.and_eq_true _ _).mp hc
        simpa using this.2
      constructor
      · intro x hx
        rw [List.mem_dedup] at hx
        rcases List.mem_append.mp hx with hx1 | hx2
        · rcases List.mem_append.mp hx1 with hx0 | hxd
          · rcases List.mem_singleton.mp hx0 with rfl
            exact ht
          · split at hxd
            · exact descList_subset G t hxd
            · simp at hxd
        · split at hx2
          · exact ancList_subset G t hx2
          · simp at hx2
      · intro e he
        rw [List.mem_dedup] at he
        rcases List.mem_append.mp he with he1 | he2
        · split at he1
          · exact traceEdgesF_subset G t e he1
          · simp at he1
        · split at he2
          · exact traceEdgesB_subset G t e he2
          · simp at he2
    · rw [if_neg hc]
      exact ⟨by simp, by simp⟩

-- C6 --

/-- C6: the graph builder returns exactly one node per batch record with the
record's attributes (minus the identifier) copied verbatim, node ids are
pairwise distinct, the edge list is exactly the declared relationship list
(every additional relationship passes the membership guard), and every edge
is directed from the upstream (consumed/producing) entity to the downstream
(consuming/produced) one: the manufacturing stage of the source never
exceeds the stage of the target. -/
theorem C6_builder_output_exact :
    builtGraph.nodes = sampleRecords ∧
    (builtGraph.nodes.map Prod.fst).Nodup ∧
    builtGraph.edges = all_edges ++ additional_relationships ∧
    (builtGraph.edges.all (fun e =>
      decide (stageOf builtGraph e.1 ≤ stageOf builtGraph e.2.1))) = true :=
  ⟨by decide, by decide, by decide, by decide⟩

-- C9 --

/-- Along a strictly rank-increasing edge relation, any nonempty walk
strictly increases the rank. -/
theorem transGen_rank_lt {G : Graph} (rk : String → Nat)
    (hs : ∀ p ∈ G.edgePairs, rk p.1 < rk p.2) {a b : String}
    (h : Relation.TransGen (edgeRel G) a b) : rk a < rk b := by
  induction h with
  | single he => exact hs _ he
  | tail _ he ih => exact lt_trans ih (hs _ he)

/-- C9: the built genealogy graph is acyclic — no entity is reachable from
itself by following relationship edges forward through at least one edge:
any nonempty directed walk leads to a different entity.  (The proof
exhibits a strict topological rank, so in particular
`Relation.TransGen (edgeRel builtGraph) a a` is impossible.) -/
theorem C9_built_graph_acyclic (a b : String)
    (h : Relation.TransGen (edgeRel builtGraph) a b) : a ≠ b := by
  have hlt := transGen_rank_lt rank (by decide) h
  intro heq
  rw [heq] at hlt
  exact lt_irrefl _ hlt

/-- C9 witness: a concrete one-edge walk in the built graph, yielding
distinct endpoints. -/
theorem C9_built_graph_acyclic_witness :
    Relation.TransGen (edgeRel builtGraph) "RM-API-001" "INT-BLEND-001" ∧
      ("RM-API-001" : String) ≠ "INT-BLEND-001" :=
  ⟨Relation.TransGen.single (by decide),
    C9_built_graph_acyclic "RM-API-001" "INT-BLEND-001"
      (Relation.TransGen.single (by decide))⟩

-- C7 --

/-- C7 counterexample: `get_bom_list` returns a nonempty bill of materials
for `FP-TAB-001` whose entries carry no `level` annotation at all (the
DataFrame columns are material, batch_id, quantity, unit, type, status), so
the returned list is not a list of level-annotated entries. -/
theorem C7_bom_no_level_counterexample :
    get_bom_list "FP-TAB-001" ≠ [] ∧
      (get_bom_list "FP-TAB-001").all
        (fun e => (lookupAttr e "level").isNone) = true :=
  ⟨by decide, by decide⟩

/-- C7 (amended): every entry returned by `get_bom_list` carries no `level`
annotation, and its `batch_id` is a member of the ancestors of the queried
target in the built genealogy graph (
for targets outside the three sampled products the list is empty). -/
theorem C7_bom_entries (target : String) (e : Attrs)
    (he : e ∈ get_bom_list target) :
    (lookupAttr e "level").isNone = true ∧
      (lookupAttr e "batch_id").getD "" ∈ ancList builtGraph target := by
  unfold get_bom_list at he
  by_cases h1 : (target == "FP-TAB-001") = true
  · rw [if_pos h1] at he
    obtain rfl := beq_iff_eq.mp h1
    simp only [List.mem_cons, List.not_mem_nil, or_false] at he
    rcases he with rfl | rfl | rfl | rfl | rfl <;> exact ⟨by decide, by decide⟩
  · rw [if_neg h1] at he
    by_cases h2 : (target == "FP-TAB-002") = true
    · rw [if_pos h2] at he
      obtain rfl := beq_iff_eq.mp h2
      simp only [List.mem_cons, List.not_mem_nil, or_false] at he
      rcases he with rfl | rfl | rfl | rfl <;> exact ⟨by decide, by decide⟩
    · rw [if_neg h2] at he
      by_cases h3 : (target == "FP-TAB-003") = true
      · rw [if_pos h3] at he
        obtain rfl := beq_iff_eq.mp h3
        simp only [List.mem_cons, List.not_mem_nil, or_false] at he
        rcases he with rfl | rfl | rfl <;> exact ⟨by decide, by decide⟩
      · rw [if_neg h3] at he
        simp at he

/-- The first BOM entry of `FP-TAB-001`, used to instantiate the amended C7
statement. -/
def bomSampleEntry : Attrs :=
  [("material", "Paracetamol API"), ("batch_id", "RM-API-001"),
    ("quantity", "25"), ("unit", "kg"), ("type", "Raw Material"),
    ("status", "Approved")]

/-- C7 witness: the amended statement evaluated at the first BOM entry of
`FP-TAB-001`. -/
theorem C7_bom_entries_witness :
    bomSampleEntry ∈ get_bom_list "FP-TAB-001" ∧
      ((lookupAttr bomSampleEntry "level").isNone = true ∧
        (lookupAttr bomSampleEntry "batch_id").getD ""
          ∈ ancList builtGraph "FP-TAB-001") :=
  ⟨by decide, C7_bom_entries "FP-TAB-001" bomSampleEntry (by decide)⟩

-- C10 --

/-- C10: for every argument that is neither `"ALL"` nor a key of the mock
database, `load_mock_batch` silently returns the full genealogy record of
batch `B001` (the record stored under the key `"B001"`), rather than an
error or an empty result. -/
theorem C10_load_mock_batch_default (batch_id : String)
    (h1 : batch_id ≠ "ALL") (h2 : batch_db.lookup batch_id = none) :
    load_mock_batch batch_id = .single b001Record ∧
      batch_db.lookup "B001" = some b001Record := by
  constructor
  · unfold load_mock_batch
    rw [if_neg (fun hh => h1 (beq_iff_eq.mp hh))]
    rw [h2]
    rfl
  · decide

/-- C10 witness: evaluated at the unknown identifier `XYZ-UNKNOWN`. -/
theorem C10_load_mock_batch_default_witness :
    ("XYZ-UNKNOWN" : String) ≠ "ALL" ∧
      batch_db.lookup "XYZ-UNKNOWN" = none ∧
      (load_mock_batch "XYZ-UNKNOWN" = .single b001Record ∧
        batch_db.lookup "B001" = some b001Record) :=
  ⟨by decide, by decide,
    C10_load_mock_batch_default "XYZ-UNKNOWN" (by decide) (by decide)⟩

-- C8 --

/-- C8: the trace computation is read-only.  Threading the graph through
every library call the source makes (`nx.descendants`, `nx.ancestors`,
`nx.has_path`, `nx.shortest_path`), the graph that comes out is the graph
that went in — node set, edge set and all attributes unchanged (the
equality is on the whole `Graph` value) — and the computed highlight sets
agree with the direct reading. -/
theorem C8_trace_read_only (G : Graph) (target : Option String)
    (mode : String) :
    (calculate_trace_highlights_st G target mode).2 = G ∧
    (calculate_trace_highlights_st G target mode).1 =
      calculate_trace_highlights G target mode := by
  match target with
  | none => exact ⟨rfl, rfl⟩
  | some t =>
    simp only [calculate_trace_highlights_st, calculate_trace_highlights]
    by_cases hc : (t != "" && G.vertexList.contains t) = true
    · rw [if_pos hc, if_pos hc]
      by_cases hf : (mode == "forward" || mode == "both") = true
        <;> by_cases hb : (mode == "backward" || mode == "both") = true
        <;> simp [hf, hb, nx_descendants_call, nx_ancestors_call,
              collectPathEdgesSt_eq, traceEdgesF, traceEdgesB,
              List.flatMap_map]
    · rw [if_neg hc, if_neg hc]
      exact ⟨rfl, rfl⟩
